import Mathlib

/-!
Shallow embedding of the `truflationdev/telegram_bot` log-monitoring bot,
covering `src/telegram_bot/utilities.py` (the JSON log store: append, load,
prune, replication push) and `src/telegram_bot/systems_monitor_bot.py` (the
keyword / threshold evaluators and the heartbeat throttle).

Modelling conventions:
* Python dicts produced by `json.JSONDecoder(object_pairs_hook=OrderedDict)`
  are association lists preserving insertion order; `d[k] = v` overwrites in
  place or appends at the end (`setA`), `del d[k]` removes the binding
  (`eraseA`), `d.get/in` is `List.lookup`.
* The file system is an association list from path to parsed store contents;
  a missing file is an absent key.
* Epoch-second timestamps are exact integers (`ℤ`); numeric record values are
  exact rationals (`ℚ`).  `str_to_datetime`-style key parsing, which turns a
  key string into an epoch value, is passed in as a function where the key
  syntax is irrelevant, and stores whose keys only matter through their parsed
  value are keyed directly by `ℤ`.
* Raised Python exceptions are `Except PyErr`; an operation that can both
  mutate the file system and raise returns the file system at raise time.
-/

namespace TelegramBot

/-- Decidable equality for `Except`, needed to evaluate concrete runs. -/
instance {ε α : Type} [DecidableEq ε] [DecidableEq α] : DecidableEq (Except ε α) := fun a b =>
  match a, b with
  | .ok x, .ok y => if h : x = y then isTrue (by rw [h]) else isFalse (by simp [h])
  | .error e, .error f => if h : e = f then isTrue (by rw [h]) else isFalse (by simp [h])
  | .ok _, .error _ => isFalse (by simp)
  | .error _, .ok _ => isFalse (by simp)

/-- Python exception classes that the modelled code can raise. -/
inductive PyErr where
  | nameError
  | typeError
  | keyError
  | indexError
  | valueError
  | exception (msg : String)
deriving DecidableEq

/-- JSON values, as decoded by `json.loads` and stored in log files. -/
inductive JVal where
  | jstr : String → JVal
  | jnum : ℚ → JVal
  | jbool : Bool → JVal
  | jnull : JVal
  | jobj : List (String × JVal) → JVal

/-- Python `d[k] = v` on an (ordered) dict: overwrite the existing binding in
place, else append a new binding at the end. -/
def setA {α : Type} : List (String × α) → String → α → List (String × α)
  | [], k, v => [(k, v)]
  | (k', v') :: rest, k, v =>
      if k' = k then (k, v) :: rest else (k', v') :: setA rest k v

/-- Python `del d[k]` on a dict: drop the binding of `k`. -/
def eraseA {α : Type} : List (String × α) → String → List (String × α)
  | [], _ => []
  | (k', v') :: rest, k => if k' = k then rest else (k', v') :: eraseA rest k

/-- Parsed contents of one on-disk log file: timestamp key → record. -/
abbrev Store := List (String × JVal)

/-- The file system: path → parsed store contents; absent key = missing file. -/
abbrev FileSys := List (String × Store)

/-- Contents of `log_file_path` as `load` sees them: a missing file reads as
the empty store. -/
def loadView (fs : FileSys) (path : String) : Store := (fs.lookup path).getD []

/-- `check_log_file` from utilities.py: raise on a falsey path, create the
file with `{}` if it does not exist. -/
def check_log_file (log_file_path : String) (fs : FileSys) : Except PyErr Unit × FileSys :=
  if log_file_path = "" then (.error (.exception "log_file_path is falsey."), fs)
  else
    match fs.lookup log_file_path with
    | some _ => (.ok (), fs)
    | none => (.ok (), setA fs log_file_path [])

/-- `load_logs_into_dict` from utilities.py: ensure the file exists, then
parse its JSON into an ordered dict (empty contents read as `{}`). -/
def load_logs_into_dict (log_file_path : String) (fs : FileSys) :
    Except PyErr Store × FileSys :=
  match check_log_file log_file_path fs with
  | (.error e, fs') => (.error e, fs')
  | (.ok _, fs') => (.ok (loadView fs' log_file_path), fs')

/-- `save_logs` from utilities.py.  Its first statement is
`with Ilock('save_log_lock'):`, but the module imports the lock class as
`ILock` (`from ilock import ILock`); the name `Ilock` is unbound, so the call
raises `NameError` before the file is opened for writing, and the file system
is left exactly as it was. -/
def save_logs (_logs_dict : Store) (_log_file_path : String) (fs : FileSys) :
    Except PyErr Unit × FileSys :=
  (.error .nameError, fs)

/-- Input to `process_input_data`: a mapping, a string, or anything else
(carried as its repr; only its non-string, non-dict nature matters). -/
inductive PyInput where
  | dict : List (String × JVal) → PyInput
  | str : String → PyInput
  | other : String → PyInput

/-- `process_input_data` from utilities.py, parameterised by the `json.loads`
parser (`none` = `JSONDecodeError`).  A dict passes through, a string is
JSON-decoded with fallback to `{"general": s}`, anything else raises
`TypeError` (the spec's `InvalidInputError`). -/
def process_input_data (json_loads : String → Option JVal) : PyInput → Except PyErr JVal
  | .dict d => .ok (.jobj d)
  | .str s =>
    match json_loads s with
    | some v => .ok v
    | none => .ok (.jobj [("general", .jstr s)])
  | .other _ => .error .typeError

/-- `log_to_bot` from utilities.py: process the input, stamp it with the
current UTC ISO timestamp `ts`, merge into the loaded store, save. -/
def log_to_bot (json_loads : String → Option JVal) (input_data : PyInput)
    (log_file_path : String) (ts : String) (fs : FileSys) :
    Except PyErr Unit × FileSys :=
  match process_input_data json_loads input_data with
  | .error e => (.error e, fs)
  | .ok data_dict =>
    match load_logs_into_dict log_file_path fs with
    | (.error e, fs') => (.error e, fs')
    | (.ok total_report, fs') =>
        save_logs (setA total_report ts data_dict) log_file_path fs'

/-- The in-memory pruning step of `delete_entries_older_than_x_days`:
collect every key whose parsed timestamp is older than
`current_time - days*24*3600`, then delete those keys. -/
def delete_entries_data (parseTs : String → ℤ) (current_time : ℤ) (days : ℤ)
    (data : Store) : Store :=
  let timestamps_to_delete :=
    (data.filter (fun p => decide (current_time - days * 24 * 3600 > parseTs p.1))).map Prod.fst
  timestamps_to_delete.foldl (fun d k => eraseA d k) data

/-- `delete_entries_older_than_x_days` from utilities.py: ensure the file
exists, read it, drop entries older than the cutoff, save.  `parseTs` models
the float-then-ISO key parsing. -/
def delete_entries_older_than_x_days (parseTs : String → ℤ) (log_file_path : String)
    (days : ℤ) (current_time : ℤ) (fs : FileSys) : Except PyErr Unit × FileSys :=
  match check_log_file log_file_path fs with
  | (.error e, fs') => (.error e, fs')
  | (.ok _, fs') =>
      save_logs (delete_entries_data parseTs current_time days (loadView fs' log_file_path))
        log_file_path fs'

/-- Default log retention in days (`LOG_LIFE` environment default). -/
def log_life : ℤ := 3

/-- `run` from utilities.py: execute a shell command; on failure, log the
error dict through `log_to_bot` to the general log file.  `cmd_result` is
`none` on subprocess success, `some exc` carrying the exception text. -/
def run (json_loads : String → Option JVal) (cmd : String) (cmd_result : Option String)
    (ts : String) (general_logfile : String) (fs : FileSys) :
    Except PyErr Unit × FileSys :=
  match cmd_result with
  | none => (.ok (), fs)
  | some e =>
      log_to_bot json_loads
        (.dict [("error", .jstr ("\"error\": \"while trying to run command " ++ cmd ++
          ", an error occurred: " ++ e ++ "\""))])
        general_logfile ts fs

/-- Environment of `push_log`: the `RSA_ID_PATH` and `REMOTE_PATH` variables
(`none` = unset), whether the key path exists on disk, the hostname and the
general log file used by `run` for failure reports. -/
structure PushEnv where
  rsa_id_path : Option String
  remote_directory_path : Option String
  rsa_id_isfile : Bool
  hostname : String
  general_logfile : String

/-- Observable actions of one `push_log` call, in order: a transfer attempt
(the `run` of the rsync command) or a prune invocation
(`delete_entries_older_than_x_days`). -/
inductive PushEvent where
  | transfer (local_path remote_path : String)
  | prune (path : String)
deriving DecidableEq

/-- Python truthiness test `not x` for an optional string. -/
def isFalsy : Option String → Bool
  | none => true
  | some s => s.isEmpty

/-- `os.path.join` for the remote destination (second part never absolute). -/
def os_path_join (a b : String) : String :=
  if a.data.getLast? = some '/' then a ++ b else a ++ "/" ++ b

/-- The rsync command line built by `push_log`. -/
def rsync_cmd (rsa_id_path log_file_path temp_remote_path : String) : String :=
  "rsync -avz -e \"ssh -i " ++ rsa_id_path ++ " -o StrictHostKeyChecking=no\" " ++
    log_file_path ++ " " ++ temp_remote_path

/-- Per-pair loop of `push_log`: build the remote name, attempt the transfer,
then invoke the prune.  Events are recorded at invocation time; a raised
exception stops the loop with the events so far. -/
def push_log_go (json_loads : String → Option JVal) (env : PushEnv)
    (cmd_result : String → Option String) (parseTs : String → ℤ) (now : ℤ)
    (ts : String) (rsa rd : String) :
    List (String × String) → FileSys → List PushEvent →
    Except PyErr Unit × FileSys × List PushEvent
  | [], fs, evs => (.ok (), fs, evs)
  | (saving_convention, log_file_path) :: rest, fs, evs =>
    let file_name := saving_convention ++ "." ++ env.hostname ++ ".json"
    let temp_remote_path := os_path_join rd file_name
    let cmd := rsync_cmd rsa log_file_path temp_remote_path
    let evs' := evs ++ [.transfer log_file_path temp_remote_path]
    match run json_loads cmd (cmd_result cmd) ts env.general_logfile fs with
    | (.error e, fs') => (.error e, fs', evs')
    | (.ok _, fs') =>
      let evs'' := evs' ++ [.prune log_file_path]
      match delete_entries_older_than_x_days parseTs log_file_path log_life now fs' with
      | (.error e, fs'') => (.error e, fs'', evs'')
      | (.ok _, fs'') =>
          push_log_go json_loads env cmd_result parseTs now ts rsa rd rest fs'' evs''

/-- `push_log` from utilities.py: if either `RSA_ID_PATH` or `REMOTE_PATH` is
unset/empty, print and return (no transfer, no prune); if the key path is not
a file, raise; otherwise process each category→path pair in order. -/
def push_log (json_loads : String → Option JVal) (env : PushEnv)
    (cmd_result : String → Option String) (parseTs : String → ℤ) (now : ℤ)
    (ts : String) (name_to_file : List (String × String)) (fs : FileSys) :
    Except PyErr Unit × FileSys × List PushEvent :=
  if isFalsy env.rsa_id_path || isFalsy env.remote_directory_path then (.ok (), fs, [])
  else
    match env.rsa_id_path, env.remote_directory_path with
    | some rsa, some rd =>
      if !env.rsa_id_isfile then
        (.error (.exception (rsa ++ ", the rsa id path, does not exist")), fs, [])
      else push_log_go json_loads env cmd_result parseTs now ts rsa rd name_to_file fs []
    | _, _ => (.ok (), fs, [])

/-- Alarm keywords routing general-log fields to the urgent chat. -/
def alarm_words_for_general_logs : List String := ["alert", "error"]

/-- A general-log record: field name → displayed value. -/
abbrev GRec := List (String × String)

/-- Prefix of `cs` before the first occurrence of `pat` (all of `cs` if `pat`
never occurs): Python `s.split(pat)[0]`. -/
def takeBeforeFirst (pat : List Char) : List Char → List Char
  | [] => []
  | c :: rest => if pat.isPrefixOf (c :: rest) then [] else c :: takeBeforeFirst pat rest

/-- Python `s.split(".")` on a character list. -/
def splitDots : List Char → List (List Char)
  | [] => [[]]
  | c :: rest =>
    match splitDots rest with
    | [] => [[]]
    | g :: gs => if c = '.' then [] :: g :: gs else (c :: g) :: gs

/-- Source label derived from a file name:
`".".join(file_name.split(".json")[0].split(".")[1:])`. -/
def server_name (file_name : String) : String :=
  String.intercalate "."
    (((splitDots (takeBeforeFirst ".json".data file_name.data)).map String.mk).drop 1)

/-- Indented `key: value` block of the fields of `rec` selected by `keep`. -/
def render_fields (rec : GRec) (keep : String → Bool) : String :=
  String.intercalate "\n"
    ((rec.filter (fun kv => keep kv.1)).map (fun kv => "    " ++ kv.1 ++ ": " ++ kv.2))

/-- Loop of `check_values`: state is (heartbeat_logs, error_logs,
most_recent_timestamp); records at or below the cursor are skipped, newer
records advance the maximum and render their keyword partition. -/
def check_values_go (last_general_log_check_ts : ℤ) (alarm_words : List String) :
    List (ℤ × GRec) → String × String × ℤ → String × String × ℤ
  | [], st => st
  | (time_stamp, data) :: rest, (hb, er, mrt) =>
    if time_stamp ≤ last_general_log_check_ts then
      check_values_go last_general_log_check_ts alarm_words rest (hb, er, mrt)
    else
      let mrt' := if time_stamp > mrt then time_stamp else mrt
      let my_data_string := render_fields data (fun k => !alarm_words.contains k)
      let my_error_string := render_fields data (fun k => alarm_words.contains k)
      let hb' := hb ++ (if my_data_string.isEmpty then ""
        else "  " ++ toString time_stamp ++ ":\n" ++ my_data_string ++ "\n")
      let er' := er ++ (if my_error_string.isEmpty then ""
        else "  " ++ toString time_stamp ++ ":\n" ++ my_error_string ++ "\n")
      check_values_go last_general_log_check_ts alarm_words rest (hb', er', mrt')

/-- `check_values` from systems_monitor_bot.py (keyword mode): scan the store
for records newer than the cursor, partition fields by the alarm-keyword set,
and return (heartbeat text, alarm text, maximum timestamp seen). -/
def check_values (timeseries_data : List (ℤ × GRec)) (last_general_log_check_ts : ℤ)
    (alarm_words : List String) : String × String × ℤ :=
  check_values_go last_general_log_check_ts alarm_words timeseries_data
    ("", "", last_general_log_check_ts)

/-- One general-log source file: its name and its parsed contents, or the
`json.JSONDecodeError` message if the stored JSON is malformed. -/
structure GFile where
  name : String
  content : Except String (List (ℤ × GRec))

/-- Loop of `process_general_log_files` over the source files.  The state is
(alert string, heartbeat messages, alarm messages, outer maximum timestamp).
`load_logs_into_dict` is not guarded by a try/except here, so a malformed
store raises out of the loop. -/
def process_general_log_files_go (last_general_log_check_ts : ℤ) (alarm_words : List String) :
    List GFile → String × String × String × ℤ → Except PyErr (String × String × String × ℤ)
  | [], st => .ok st
  | f :: rest, (al, hb, am, outer) =>
    match f.content with
    | .error e => .error (.exception e)
    | .ok timeseries_data =>
      let (heartbeat_logs, error_logs, inner) :=
        check_values timeseries_data last_general_log_check_ts alarm_words
      let hb' := hb ++ (if heartbeat_logs.isEmpty then ""
        else server_name f.name ++ ":\n" ++ heartbeat_logs ++ "\n\n")
      let am' := am ++ (if error_logs.isEmpty then ""
        else server_name f.name ++ ":\n" ++ error_logs ++ "\n\n")
      let outer' := if inner > outer then inner else outer
      process_general_log_files_go last_general_log_check_ts alarm_words rest
        (al, hb', am', outer')

/-- `process_general_log_files` from systems_monitor_bot.py. -/
def process_general_log_files (my_files : List GFile) (last_general_log_check_ts : ℤ)
    (alarm_words : List String) : Except PyErr (String × String × String × ℤ) :=
  process_general_log_files_go last_general_log_check_ts alarm_words my_files
    ("", "", "", last_general_log_check_ts)

/-- Effect of one `check_general_logs` run on the module-level cursor
`last_general_log_check_ts`, given the matched general-log files: with no
files, or when the scan raises, the global is left unchanged; otherwise it is
advanced to the returned maximum when that is larger. -/
def check_general_logs_cursor (my_files : List GFile) (alarm_words : List String)
    (c : ℤ) : ℤ :=
  if my_files.isEmpty then c
  else
    match process_general_log_files my_files c alarm_words with
    | .error _ => c
    | .ok (_, _, _, m) => if m > c then m else c

/-- A health-log record: field name → numeric value. -/
abbrev HRec := List (String × ℚ)

/-- One health-log source file: name, last-modified time, and parsed contents
or the decode-error message. -/
structure HFile where
  name : String
  mtime : ℤ
  content : Except String (List (ℤ × HRec))

/-- The static threshold table of `check_system_health`. -/
def value_threshold_dict : List (String × ℚ) := [("disk_usage", 95)]

/-- Per-file exceeding records: field name → (timestamp, value). -/
abbrev FileRecords := List (String × (ℤ × ℚ))

/-- The `my_records` accumulator of `check_system_health`: file name → its
exceeding records. -/
abbrev MyRecords := List (String × FileRecords)

/-- Decidability of equality on pairs of a name and a record table, spelled
out because automatic synthesis of the nested product instance is
unreliable. -/
instance : DecidableEq (String × MyRecords) := instDecidableEqProd

/-- Decidability of equality on `check_system_health` results. -/
instance : DecidableEq (String × String × MyRecords) := instDecidableEqProd

/-- Decidability of equality on name/timestamp pairs. -/
instance : DecidableEq (String × ℤ) := instDecidableEqProd

/-- Decidability of equality on text/text/timestamp triples. -/
instance : DecidableEq (String × String × ℤ) := instDecidableEqProd

/-- Decidability of equality on `process_general_log_files` results. -/
instance : DecidableEq (String × String × String × ℤ) := instDecidableEqProd

/-- Inner loop body of the threshold check, for one (field, ceiling) pair of
`value_threshold_dict` against one record.  Mirrors the source exactly: a
present field exceeding its ceiling is recorded under
`my_records[file_name][name]` when `name not in my_records` (the top-level
dict is keyed by file names, so this is the usual case; when a file is
literally named like the field, `my_records[name][0]` raises `KeyError`); an
absent field assigns — not appends — the `not found` message to the alert
string. -/
def scan_threshold_item (file_name : String) (time_stamp : ℤ) (data : HRec)
    (st : MyRecords × String) (nt : String × ℚ) : Except PyErr (MyRecords × String) :=
  match data.lookup nt.1 with
  | some v =>
    if v > nt.2 then
      if (st.1.lookup nt.1).isSome then .error .keyError
      else
        .ok (setA st.1 file_name (setA ((st.1.lookup file_name).getD []) nt.1 (time_stamp, v)),
          st.2)
    else .ok st
  | none => .ok (st.1, file_name ++ ": " ++ nt.1 ++ " not found.\n")

/-- Body of the record loop of `check_system_health`: records older than the
cursor are skipped, the rest are checked against every threshold. -/
def scan_record (file_name : String) (last_check_timestamp : ℤ)
    (st : MyRecords × String) (p : ℤ × HRec) : Except PyErr (MyRecords × String) :=
  if p.1 < last_check_timestamp then .ok st
  else value_threshold_dict.foldlM (scan_threshold_item file_name p.1 p.2) st

/-- The record loop of `check_system_health` over one file's store. -/
def scan_records (file_name : String) (last_check_timestamp : ℤ) :
    List (ℤ × HRec) → MyRecords × String → Except PyErr (MyRecords × String)
  | [], st => .ok st
  | p :: rest, st =>
    match scan_record file_name last_check_timestamp st p with
    | .error e => .error e
    | .ok st' => scan_records file_name last_check_timestamp rest st'

/-- Stable descending insertion: an element moves ahead only of strictly
smaller timestamps, as Python's stable `sorted(..., reverse=True)`. -/
def insertDesc (p : ℤ × HRec) : List (ℤ × HRec) → List (ℤ × HRec)
  | [] => [p]
  | q :: rest => if p.1 > q.1 then p :: q :: rest else q :: insertDesc p rest

/-- Stable descending sort by timestamp of a health store's items. -/
def sortDesc (l : List (ℤ × HRec)) : List (ℤ × HRec) := l.foldr insertDesc []

/-- The `latest_values` rendering: one `field: value` line per monitored
field, looked up in the given (latest) record; `latest_values_dict[k]` raises
`KeyError` when a monitored field is absent. -/
def latest_values_of (rec : HRec) : Except PyErr String :=
  match value_threshold_dict.mapM (fun nt =>
      match rec.lookup nt.1 with
      | some v => Except.ok (nt.1 ++ ": " ++ toString v)
      | none => Except.error PyErr.keyError) with
  | .error e => .error e
  | .ok parts => .ok (String.intercalate "\n    " parts)

/-- Staleness warning of `check_system_health` (1-hour window). -/
def stale_alert (file_name : String) (mtime now : ℤ) : String :=
  if now - mtime > 3600 then
    file_name ++ " has not been updated in " ++ toString (Int.fdiv (now - mtime) 3600) ++
      " hours.\n"
  else ""

/-- Per-file body of `check_system_health`.  State is (my_alert_string,
my_records, heartbeat_messages).  A malformed store appends an error line and
skips the file; otherwise the records are scanned against the thresholds and
the most recent record (first under stable descending sort) is rendered into
the heartbeat — `[0]` of an empty item list raises `IndexError`. -/
def process_health_file (last_check_timestamp now : ℤ)
    (st : String × MyRecords × String) (f : HFile) :
    Except PyErr (String × MyRecords × String) :=
  let al := st.1 ++ stale_alert f.name f.mtime now
  let mr := setA st.2.1 f.name []
  match f.content with
  | .error e => .ok (al ++ "Error with " ++ f.name ++ ": " ++ e ++ "\n", mr, st.2.2)
  | .ok timeseries_data =>
    match scan_records f.name last_check_timestamp timeseries_data (mr, al) with
    | .error e => .error e
    | .ok (mr', al') =>
      match (sortDesc timeseries_data).head? with
      | none => .error .indexError
      | some latest =>
        match latest_values_of latest.2 with
        | .error e => .error e
        | .ok latest_values =>
            .ok (al', mr', st.2.2 ++ server_name f.name ++ " ==>\n    " ++ latest_values ++ "\n")

/-- The file loop of `check_system_health`. -/
def process_health_files (last_check_timestamp now : ℤ) :
    List HFile → String × MyRecords × String → Except PyErr (String × MyRecords × String)
  | [], st => .ok st
  | f :: rest, st =>
    match process_health_file last_check_timestamp now st f with
    | .error e => .error e
    | .ok st' => process_health_files last_check_timestamp now rest st'

/-- Final loop of `check_system_health` over one file's exceeding records,
appending an `exceeds threshold` alarm line per recorded field. -/
def exceeds_lines_file (file_name : String) (records : FileRecords) (acc : String) :
    Except PyErr String :=
  records.foldlM (fun acc e =>
    match value_threshold_dict.lookup e.1 with
    | some threshold => Except.ok (acc ++ server_name file_name ++ " ==>  " ++ e.1 ++
        " (" ++ toString e.2.2 ++ ") exceeds threshold (" ++ toString threshold ++ ")\n")
    | none => Except.error PyErr.keyError) acc

/-- Final loop of `check_system_health` over `my_records`. -/
def exceeds_lines (my_records : MyRecords) : Except PyErr String :=
  my_records.foldlM (fun acc fe => exceeds_lines_file fe.1 fe.2 acc) ""

/-- `check_system_health` from systems_monitor_bot.py, as a function of the
matched health-log files, the current time and the cursor
`last_check_timestamp`; returns (heartbeat messages, alarm text,
my_records). -/
def check_system_health (my_files : List HFile) (now last_check_timestamp : ℤ) :
    Except PyErr (String × String × MyRecords) :=
  match process_health_files last_check_timestamp now my_files ("", [], "") with
  | .error e => .error e
  | .ok (al, mr, hb) =>
    match exceeds_lines mr with
    | .error e => .error e
    | .ok ex => .ok (hb, al ++ ex, mr)

/-- Startup initialisation of `heartbeat_last_message_dic`: every category of
the wait-period config maps to the startup time. -/
def heartbeat_last_message_dic (wait_dic : List (String × ℤ)) (heartbeat_start_time : ℤ) :
    List (String × ℤ) :=
  wait_dic.map (fun p => (p.1, heartbeat_start_time))

/-- `send_heartbeat_and_alarm_messages` from systems_monitor_bot.py: a
non-empty heartbeat is sent when
`heartbeat_last_message_dic[heartbeat_type] + heartbeat_wait_period_dic.get(heartbeat_type, 24*3600) < ts_now`
(the last-sent dict is indexed directly, so a category missing from it raises
`KeyError`; the short-circuiting `and` never reaches the lookup when the
heartbeat text is empty); sending records `ts_now` as the category's
last-sent time.  Non-empty alarm text is always sent.  Returns
(heartbeat sent?, updated last-sent dict, alarm sent?). -/
def send_heartbeat_and_alarm_messages (heartbeat_messages alarm_messages : String)
    (heartbeat_type : String) (last_dic wait_dic : List (String × ℤ)) (ts_now : ℤ) :
    Except PyErr (Bool × List (String × ℤ) × Bool) :=
  if heartbeat_messages.length > 0 then
    match last_dic.lookup heartbeat_type with
    | none => .error .keyError
    | some last =>
      if last + ((wait_dic.lookup heartbeat_type).getD (24 * 3600)) < ts_now then
        .ok (true, setA last_dic heartbeat_type ts_now, !alarm_messages.isEmpty)
      else .ok (false, last_dic, !alarm_messages.isEmpty)
  else .ok (false, last_dic, !alarm_messages.isEmpty)

/-! ### Helper lemmas about the dict operations -/

lemma lookup_setA_self {α : Type} (l : List (String × α)) (k : String) (v : α) :
    (setA l k v).lookup k = some v := by
  induction l with
  | nil => simp [setA]
  | cons p rest ih =>
    obtain ⟨k', v'⟩ := p
    by_cases h : k' = k
    · simp [setA, h]
    · have hb : (k == k') = false := beq_eq_false_iff_ne.mpr (Ne.symm h)
      simp [setA, h, List.lookup, hb, ih]

lemma lookup_setA_ne {α : Type} (l : List (String × α)) (k q : String) (v : α)
    (h : q ≠ k) : (setA l k v).lookup q = l.lookup q := by
  have hb : (q == k) = false := beq_eq_false_iff_ne.mpr h
  induction l with
  | nil => simp [setA, List.lookup, hb]
  | cons p rest ih =>
    obtain ⟨k', v'⟩ := p
    by_cases hk : k' = k
    · subst hk
      simp [setA, List.lookup, hb, ih]
    · simp [setA, hk, List.lookup, ih]

lemma loadView_setA_nil (fs : FileSys) (path : String) (h : fs.lookup path = none)
    (q : String) : loadView (setA fs path []) q = loadView fs q := by
  by_cases hq : q = path
  · subst hq
    simp [loadView, lookup_setA_self, h]
  · simp [loadView, lookup_setA_ne _ _ _ _ hq]

lemma log_to_bot_ok_input_name_error (jl : String → Option JVal) (input : PyInput)
    (path ts : String) (fs : FileSys) (dd : JVal)
    (hpath : path ≠ "") (hin : process_input_data jl input = .ok dd) :
    (log_to_bot jl input path ts fs).1 = .error .nameError := by
  unfold log_to_bot load_logs_into_dict check_log_file
  rw [hin, if_neg hpath]
  cases fs.lookup path with
  | some st => simp [save_logs]
  | none => simp [save_logs]

/-! ### C2: every persist through save_logs raises NameError -/

/-- C2.  `save_logs` raises `NameError` (the `Ilock`/`ILock` name slip) before
writing, leaving the file system untouched; consequently `log_to_bot` (for any
input `process_input_data` accepts) and `delete_entries_older_than_x_days`
fail with `NameError` and leave the loadable contents of every path exactly as
they were. -/
theorem save_logs_always_name_error (jl : String → Option JVal) (input : PyInput)
    (path ts : String) (fs : FileSys) (d : Store) (p : String) (g : FileSys)
    (parseTs : String → ℤ) (days now : ℤ) (dd : JVal)
    (hpath : path ≠ "") (hin : process_input_data jl input = .ok dd) :
    save_logs d p g = (.error .nameError, g)
    ∧ (log_to_bot jl input path ts fs).1 = .error .nameError
    ∧ (∀ q, loadView (log_to_bot jl input path ts fs).2 q = loadView fs q)
    ∧ (delete_entries_older_than_x_days parseTs path days now fs).1 = .error .nameError
    ∧ (∀ q, loadView (delete_entries_older_than_x_days parseTs path days now fs).2 q
        = loadView fs q) := by
  have hload : ∀ (q : String),
      (log_to_bot jl input path ts fs).2 = (check_log_file path fs).2 ∧
      (delete_entries_older_than_x_days parseTs path days now fs).2
        = (check_log_file path fs).2 ∧
      loadView (check_log_file path fs).2 q = loadView fs q ∧
      (log_to_bot jl input path ts fs).1 = .error .nameError ∧
      (delete_entries_older_than_x_days parseTs path days now fs).1 = .error .nameError := by
    intro q
    unfold log_to_bot delete_entries_older_than_x_days load_logs_into_dict check_log_file
    rw [hin]
    rw [if_neg hpath]
    cases h : fs.lookup path with
    | some st => simp [save_logs]
    | none => simp [save_logs, loadView_setA_nil fs path h q]
  refine ⟨rfl, (hload path).2.2.2.1, ?_, (hload path).2.2.2.2, ?_⟩
  · intro q
    rw [(hload q).1, (hload q).2.2.1]
  · intro q
    rw [(hload q).2.1, (hload q).2.2.1]

/-- Witness for C2 at a concrete store, input and paths. -/
theorem save_logs_always_name_error_witness :
    save_logs [] "p" [("p", [])] = (.error .nameError, [("p", [])])
    ∧ (log_to_bot (fun _ => none) (.dict [("general", .jstr "hi")]) "log" "t" []).1
        = .error .nameError
    ∧ loadView (log_to_bot (fun _ => none) (.dict [("general", .jstr "hi")]) "log" "t" []).2 "log"
        = loadView [] "log"
    ∧ (delete_entries_older_than_x_days (fun _ => 0) "log" 3 0 []).1 = .error .nameError
    ∧ loadView (delete_entries_older_than_x_days (fun _ => 0) "log" 3 0 []).2 "log"
        = loadView [] "log" := by
  have h := save_logs_always_name_error (fun _ => none) (.dict [("general", .jstr "hi")])
    "log" "t" [] [] "p" [("p", [])] (fun _ => 0) 3 0 (.jobj [("general", .jstr "hi")])
    (by decide) rfl
  exact ⟨h.1, h.2.1, h.2.2.1 "log", h.2.2.2.1, h.2.2.2.2 "log"⟩

/-! ### C1: the append/load round trip fails on the code -/

/-- C1 (failing run).  Appending a record to an existing empty store via
`log_to_bot` raises `NameError` in `save_logs`, and a subsequent load does
not contain the stamped key: the round-trip property of the claim fails. -/
theorem log_to_bot_round_trip_fails :
    (log_to_bot (fun _ => none) (.dict [("general", .jstr "hello")]) "log.json"
        "2024-01-01T00:00:00.000000" [("log.json", [])]).1 = .error .nameError
    ∧ (loadView (log_to_bot (fun _ => none) (.dict [("general", .jstr "hello")]) "log.json"
        "2024-01-01T00:00:00.000000" [("log.json", [])]).2 "log.json").lookup
          "2024-01-01T00:00:00.000000" = none := ⟨rfl, rfl⟩

/-! ### C9: pruning is idempotent -/

lemma eraseA_cons_ne {α : Type} (a : String) (b : α) (d : List (String × α)) (k : String)
    (h : a ≠ k) : eraseA ((a, b) :: d) k = (a, b) :: eraseA d k := by
  simp [eraseA, h]

lemma eraseA_cons_eq {α : Type} (a : String) (b : α) (d : List (String × α)) :
    eraseA ((a, b) :: d) a = d := by
  simp [eraseA]

lemma foldl_eraseA_not_mem (ks : List String) :
    ∀ (a : String) (b : JVal) (d : Store), a ∉ ks →
      ks.foldl (fun d k => eraseA d k) ((a, b) :: d)
        = (a, b) :: ks.foldl (fun d k => eraseA d k) d := by
  induction ks with
  | nil => intro a b d _; rfl
  | cons k ks ih =>
    intro a b d h
    have hk : a ≠ k := fun hc => h (by simp [hc])
    have hks : a ∉ ks := fun hc => h (List.mem_cons_of_mem k hc)
    simp only [List.foldl_cons]
    rw [eraseA_cons_ne a b d k hk]
    exact ih a b (eraseA d k) hks

lemma delete_entries_data_eq_filter (parseTs : String → ℤ) (now days : ℤ) :
    ∀ (data : Store), (data.map Prod.fst).Nodup →
      delete_entries_data parseTs now days data =
        data.filter (fun p => !decide (now - days * 24 * 3600 > parseTs p.1)) := by
  intro data
  induction data with
  | nil => intro _; rfl
  | cons p rest ih =>
    intro h
    rw [List.map_cons] at h
    obtain ⟨hnotin, hrest⟩ := List.nodup_cons.mp h
    obtain ⟨a, b⟩ := p
    have hrec : delete_entries_data parseTs now days rest
        = List.foldl (fun d k => eraseA d k) rest
            (List.map Prod.fst
              (List.filter (fun q => decide (now - days * 24 * 3600 > parseTs q.1)) rest)) := rfl
    have hcons : delete_entries_data parseTs now days ((a, b) :: rest)
        = List.foldl (fun d k => eraseA d k) ((a, b) :: rest)
            (List.map Prod.fst
              (List.filter (fun q => decide (now - days * 24 * 3600 > parseTs q.1))
                ((a, b) :: rest))) := rfl
    by_cases hp : now - days * 24 * 3600 > parseTs a
    · have hfc : List.filter (fun q => decide (now - days * 24 * 3600 > parseTs q.1))
          ((a, b) :: rest)
          = (a, b) :: List.filter (fun q => decide (now - days * 24 * 3600 > parseTs q.1)) rest :=
        List.filter_cons_of_pos (by simpa using hp)
      have lhs : delete_entries_data parseTs now days ((a, b) :: rest)
          = delete_entries_data parseTs now days rest := by
        rw [hcons, hfc, List.map_cons, List.foldl_cons, eraseA_cons_eq, hrec]
      rw [lhs, ih hrest, List.filter_cons_of_neg (by simp [hp])]
    · have hfc : List.filter (fun q => decide (now - days * 24 * 3600 > parseTs q.1))
          ((a, b) :: rest)
          = List.filter (fun q => decide (now - days * 24 * 3600 > parseTs q.1)) rest :=
        List.filter_cons_of_neg (by simpa using hp)
      have hnot : a ∉ (rest.filter
          (fun q => decide (now - days * 24 * 3600 > parseTs q.1))).map Prod.fst :=
        fun hc =>
          hnotin ((List.Sublist.map Prod.fst (List.filter_sublist rest)).subset hc)
      have lhs : delete_entries_data parseTs now days ((a, b) :: rest)
          = (a, b) :: delete_entries_data parseTs now days rest := by
        rw [hcons, hfc, foldl_eraseA_not_mem _ a b rest hnot, hrec]
      rw [lhs, ih hrest, List.filter_cons_of_pos (by simp [hp])]

/-- C9.  With the clock held fixed, pruning a store twice with the same
retention yields the same contents as pruning once: the in-memory pruning
step of `delete_entries_older_than_x_days` is idempotent on any store with
distinct timestamp keys. -/
theorem prune_idempotent (parseTs : String → ℤ) (now days : ℤ) (data : Store)
    (h : (data.map Prod.fst).Nodup) :
    delete_entries_data parseTs now days (delete_entries_data parseTs now days data)
      = delete_entries_data parseTs now days data := by
  have h2 : ((data.filter
      (fun p => !decide (now - days * 24 * 3600 > parseTs p.1))).map Prod.fst).Nodup :=
    (List.Sublist.map Prod.fst (List.filter_sublist data)).nodup h
  rw [delete_entries_data_eq_filter parseTs now days data h,
    delete_entries_data_eq_filter parseTs now days _ h2]
  simp [List.filter_filter]

/-- Witness for C9 at a concrete store and retention. -/
theorem prune_idempotent_witness :
    delete_entries_data (fun s => if s = "100" then 100 else 999999) 300000 3
        (delete_entries_data (fun s => if s = "100" then 100 else 999999) 300000 3
          [("100", .jnull), ("2024-01-01T00:00:00.000000", .jnull)])
      = delete_entries_data (fun s => if s = "100" then 100 else 999999) 300000 3
          [("100", .jnull), ("2024-01-01T00:00:00.000000", .jnull)] :=
  prune_idempotent (fun s => if s = "100" then 100 else 999999) 300000 3
    [("100", .jnull), ("2024-01-01T00:00:00.000000", .jnull)] (by decide)

/-! ### C10: input processing -/

/-- C10.  `process_input_data` returns a mapping unchanged, decodes a
JSON-encoded string to the decoded value, wraps a non-JSON string `s` as
`{"general": s}`, and raises `TypeError` (the spec's `InvalidInputError`) for
any other input — in which case `log_to_bot` fails before touching the file
system. -/
theorem process_input_data_cases (jl : String → Option JVal)
    (d : List (String × JVal)) (s s2 r path ts : String) (v : JVal) (fs : FileSys)
    (h1 : jl s = some v) (h2 : jl s2 = none) :
    process_input_data jl (.dict d) = .ok (.jobj d)
    ∧ process_input_data jl (.str s) = .ok v
    ∧ process_input_data jl (.str s2) = .ok (.jobj [("general", .jstr s2)])
    ∧ log_to_bot jl (.other r) path ts fs = (.error .typeError, fs) := by
  refine ⟨rfl, ?_, ?_, rfl⟩
  · simp [process_input_data, h1]
  · simp [process_input_data, h2]

/-- Witness for C10 with a concrete decoder and inputs. -/
theorem process_input_data_cases_witness :
    process_input_data (fun x => if x = "1" then some (.jnum 1) else none)
        (.dict [("a", .jnum 2)]) = .ok (.jobj [("a", .jnum 2)])
    ∧ process_input_data (fun x => if x = "1" then some (.jnum 1) else none) (.str "1")
        = .ok (.jnum 1)
    ∧ process_input_data (fun x => if x = "1" then some (.jnum 1) else none) (.str "oops")
        = .ok (.jobj [("general", .jstr "oops")])
    ∧ log_to_bot (fun x => if x = "1" then some (.jnum 1) else none) (.other "5")
        "log" "t" [] = (.error .typeError, []) :=
  process_input_data_cases (fun x => if x = "1" then some (.jnum 1) else none)
    [("a", .jnum 2)] "1" "oops" "5" "log" "t" (.jnum 1) [] rfl rfl

/-! ### C3: replication and pruning -/

/-- C3 (counterexample).  With `RSA_ID_PATH` unset and one category→path
pair, `push_log` returns immediately: no transfer is attempted and — contrary
to the claim — no prune is invoked for the pair. -/
theorem push_log_unconfigured_skips_prune :
    push_log (fun _ => none) ⟨none, some "user@host:/dir", true, "host", "gen"⟩
        (fun _ => none) (fun _ => 0) 0 "t" [("general_logs", "/p")] []
      = (.ok (), [], [])
    ∧ PushEvent.prune "/p" ∉
        (push_log (fun _ => none) ⟨none, some "user@host:/dir", true, "host", "gen"⟩
          (fun _ => none) (fun _ => 0) 0 "t" [("general_logs", "/p")] []).2.2 := by
  exact ⟨rfl, by decide⟩

/-- C3 (amended).  `push_log` behaviour: (A) with unconfigured credentials or
destination it returns with neither transfer nor prune; (B) with a configured
but non-existent key path it raises before any transfer or prune; (C) fully
configured, when the transfer command of the first pair succeeds, its
transfer attempt is followed by a prune invocation for that pair, but the
prune's save raises `NameError`, so no further pair is processed; (D) fully
configured, when the transfer command of the first pair fails, `run`'s
failure-logging `log_to_bot` raises `NameError` inside the except handler
before any prune, so no prune is invoked at all and no further pair is
processed. -/
theorem push_log_prune_behaviour (jl : String → Option JVal) (env : PushEnv)
    (cr : String → Option String) (parseTs : String → ℤ) (now : ℤ) (ts : String)
    (pairs rest : List (String × String)) (fs : FileSys) (rsa rd c p exc : String) :
    ((isFalsy env.rsa_id_path || isFalsy env.remote_directory_path) = true →
      push_log jl env cr parseTs now ts pairs fs = (.ok (), fs, []))
    ∧ (env.rsa_id_path = some rsa → env.remote_directory_path = some rd →
        rsa.isEmpty = false → rd.isEmpty = false → env.rsa_id_isfile = false →
        push_log jl env cr parseTs now ts pairs fs
          = (.error (.exception (rsa ++ ", the rsa id path, does not exist")), fs, []))
    ∧ (env.rsa_id_path = some rsa → env.remote_directory_path = some rd →
        rsa.isEmpty = false → rd.isEmpty = false → env.rsa_id_isfile = true →
        p ≠ "" →
        cr (rsync_cmd rsa p (os_path_join rd (c ++ "." ++ env.hostname ++ ".json"))) = none →
        (push_log jl env cr parseTs now ts ((c, p) :: rest) fs).1 = .error .nameError
        ∧ (push_log jl env cr parseTs now ts ((c, p) :: rest) fs).2.2
            = [.transfer p (os_path_join rd (c ++ "." ++ env.hostname ++ ".json")),
               .prune p])
    ∧ (env.rsa_id_path = some rsa → env.remote_directory_path = some rd →
        rsa.isEmpty = false → rd.isEmpty = false → env.rsa_id_isfile = true →
        env.general_logfile ≠ "" →
        cr (rsync_cmd rsa p (os_path_join rd (c ++ "." ++ env.hostname ++ ".json")))
          = some exc →
        (push_log jl env cr parseTs now ts ((c, p) :: rest) fs).1 = .error .nameError
        ∧ (push_log jl env cr parseTs now ts ((c, p) :: rest) fs).2.2
            = [.transfer p (os_path_join rd (c ++ "." ++ env.hostname ++ ".json"))]) := by
  refine ⟨?_, ?_, ?_, ?_⟩
  · intro h
    simp [push_log, h]
  · intro h1 h2 h3 h4 h5
    simp [push_log, isFalsy, h1, h2, h3, h4, h5]
  · intro h1 h2 h3 h4 h5 hp hcr
    have hgo : push_log jl env cr parseTs now ts ((c, p) :: rest) fs
        = push_log_go jl env cr parseTs now ts rsa rd ((c, p) :: rest) fs [] := by
      simp [push_log, isFalsy, h1, h2, h3, h4, h5]
    have hdel : (delete_entries_older_than_x_days parseTs p log_life now fs).1
        = .error .nameError := by
      unfold delete_entries_older_than_x_days check_log_file
      rw [if_neg hp]
      cases fs.lookup p with
      | some st => simp [save_logs]
      | none => simp [save_logs]
    rw [hgo]
    simp only [push_log_go, hcr, run]
    rcases hres : delete_entries_older_than_x_days parseTs p log_life now fs with ⟨out, fs2⟩
    rw [hres] at hdel
    have hout : out = .error .nameError := hdel
    subst hout
    exact ⟨rfl, rfl⟩
  · intro h1 h2 h3 h4 h5 hgl hcr2
    have hgo : push_log jl env cr parseTs now ts ((c, p) :: rest) fs
        = push_log_go jl env cr parseTs now ts rsa rd ((c, p) :: rest) fs [] := by
      simp [push_log, isFalsy, h1, h2, h3, h4, h5]
    have hlog : (log_to_bot jl
        (.dict [("error", .jstr ("\"error\": \"while trying to run command "
          ++ rsync_cmd rsa p (os_path_join rd (c ++ "." ++ env.hostname ++ ".json"))
          ++ ", an error occurred: " ++ exc ++ "\""))]) env.general_logfile ts fs).1
        = .error .nameError :=
      log_to_bot_ok_input_name_error jl _ env.general_logfile ts fs _ hgl rfl
    rw [hgo]
    simp only [push_log_go, hcr2, run]
    rcases hres : log_to_bot jl
        (.dict [("error", .jstr ("\"error\": \"while trying to run command "
          ++ rsync_cmd rsa p (os_path_join rd (c ++ "." ++ env.hostname ++ ".json"))
          ++ ", an error occurred: " ++ exc ++ "\""))]) env.general_logfile ts fs
      with ⟨out, fs2⟩
    rw [hres] at hlog
    have hout : out = .error .nameError := hlog
    subst hout
    exact ⟨rfl, rfl⟩

/-- Witness for C3 in the fully configured cases: one pair whose transfer
succeeds — prune is invoked and fails inside `save_logs` — and one pair whose
transfer fails — the failure-logging path raises and no prune is invoked. -/
theorem push_log_prune_behaviour_witness :
    (push_log (fun _ => none) ⟨some "/id", some "u@h:/d", true, "host", "gen"⟩
        (fun _ => none) (fun _ => 0) 0 "t" [("general_logs", "/p")] []).1
      = .error .nameError
    ∧ (push_log (fun _ => none) ⟨some "/id", some "u@h:/d", true, "host", "gen"⟩
        (fun _ => none) (fun _ => 0) 0 "t" [("general_logs", "/p")] []).2.2
      = [.transfer "/p" (os_path_join "u@h:/d" ("general_logs" ++ "." ++ "host" ++ ".json")),
         .prune "/p"]
    ∧ (push_log (fun _ => none) ⟨some "/id", some "u@h:/d", true, "host", "gen"⟩
        (fun _ => some "boom") (fun _ => 0) 0 "t" [("general_logs", "/p")] []).1
      = .error .nameError
    ∧ (push_log (fun _ => none) ⟨some "/id", some "u@h:/d", true, "host", "gen"⟩
        (fun _ => some "boom") (fun _ => 0) 0 "t" [("general_logs", "/p")] []).2.2
      = [.transfer "/p" (os_path_join "u@h:/d" ("general_logs" ++ "." ++ "host" ++ ".json"))] := by
  have hC := (push_log_prune_behaviour (fun _ => none)
    ⟨some "/id", some "u@h:/d", true, "host", "gen"⟩
    (fun _ => none) (fun _ => 0) 0 "t" [] [] [] "/id" "u@h:/d" "general_logs" "/p"
    "boom").2.2.1 rfl rfl rfl rfl rfl (by decide) rfl
  have hD := (push_log_prune_behaviour (fun _ => none)
    ⟨some "/id", some "u@h:/d", true, "host", "gen"⟩
    (fun _ => some "boom") (fun _ => 0) 0 "t" [] [] [] "/id" "u@h:/d" "general_logs" "/p"
    "boom").2.2.2 rfl rfl rfl rfl rfl (by decide) rfl
  exact ⟨hC.1, hC.2, hD.1, hD.2⟩

/-! ### C6: heartbeat throttling -/

/-- C6 (counterexample).  For a category with no recorded last-sent entry
(here: an empty wait-period config, so the startup dict is empty), the claim
prescribes gating with the startup-time default; the code indexes
`heartbeat_last_message_dic[heartbeat_type]` directly and raises `KeyError`
instead of deciding whether to send. -/
theorem heartbeat_gating_missing_category :
    send_heartbeat_and_alarm_messages "x" "" "general_logs"
        (heartbeat_last_message_dic [] 0) [] 999999 = .error .keyError := rfl

/-- C6 (amended).  For a category `c` present in the last-sent dict with
value `t`, a heartbeat is sent exactly when the heartbeat text is non-empty
and `t + waitPeriod.get(c, 86400) < now`, and sending sets the last-sent time
to `now`; the claim's three scenarios hold (wait 20: last `now-10` blocks,
last `now-30` sends, and after marking sent it blocks again at `now+1`). -/
theorem heartbeat_gating (hb am c : String) (ld wd : List (String × ℤ)) (t now : ℤ)
    (hhb : 0 < hb.length) (h : ld.lookup c = some t) :
    (t + ((wd.lookup c).getD (24 * 3600)) < now →
      send_heartbeat_and_alarm_messages hb am c ld wd now
        = .ok (true, setA ld c now, !am.isEmpty))
    ∧ (¬ t + ((wd.lookup c).getD (24 * 3600)) < now →
      send_heartbeat_and_alarm_messages hb am c ld wd now = .ok (false, ld, !am.isEmpty))
    ∧ send_heartbeat_and_alarm_messages hb am c [(c, now - 10)] [(c, 20)] now
        = .ok (false, [(c, now - 10)], !am.isEmpty)
    ∧ send_heartbeat_and_alarm_messages hb am c [(c, now - 30)] [(c, 20)] now
        = .ok (true, [(c, now)], !am.isEmpty)
    ∧ send_heartbeat_and_alarm_messages hb am c [(c, now)] [(c, 20)] (now + 1)
        = .ok (false, [(c, now)], !am.isEmpty) := by
  have hself : ∀ (x : ℤ), List.lookup c [(c, x)] = some x := by
    intro x
    simp [List.lookup]
  have hred : ∀ (ld' wd' : List (String × ℤ)) (t' now' : ℤ),
      ld'.lookup c = some t' →
      send_heartbeat_and_alarm_messages hb am c ld' wd' now'
        = if t' + ((wd'.lookup c).getD (24 * 3600)) < now'
          then .ok (true, setA ld' c now', !am.isEmpty)
          else .ok (false, ld', !am.isEmpty) := by
    intro ld' wd' t' now' h'
    unfold send_heartbeat_and_alarm_messages
    rw [if_pos hhb, h']
  refine ⟨?_, ?_, ?_, ?_, ?_⟩
  · intro hlt
    rw [hred ld wd t now h, if_pos hlt]
  · intro hge
    rw [hred ld wd t now h, if_neg hge]
  · rw [hred _ _ (now - 10) now (hself (now - 10))]
    simp only [hself, Option.getD_some]
    rw [if_neg (by omega)]
  · rw [hred _ _ (now - 30) now (hself (now - 30))]
    simp only [hself, Option.getD_some]
    rw [if_pos (by omega)]
    simp [setA]
  · rw [hred _ _ now (now + 1) (hself now)]
    simp only [hself, Option.getD_some]
    rw [if_neg (by omega)]

/-- Witness for C6 at concrete category, dicts and times. -/
theorem heartbeat_gating_witness :
    send_heartbeat_and_alarm_messages "x" "" "general_logs" [("general_logs", 0)] [] 90000
      = .ok (true, setA [("general_logs", 0)] "general_logs" 90000, !String.isEmpty "") :=
  (heartbeat_gating "x" "" "general_logs" [("general_logs", 0)] [] 0 90000
    (by decide) rfl).1 (by decide)

/-! ### C7: cursor monotonicity -/

lemma check_values_go_third (last : ℤ) (w : List String) :
    ∀ (l : List (ℤ × GRec)) (hb er : String) (m : ℤ), last ≤ m →
      (check_values_go last w l (hb, er, m)).2.2
        = l.foldl (fun acc p => max acc p.1) m := by
  intro l
  induction l with
  | nil => intro hb er m _; rfl
  | cons p rest ih =>
    intro hb er m hm
    obtain ⟨ts, data⟩ := p
    by_cases hts : ts ≤ last
    · have hmax : max m ts = m := max_eq_left (le_trans hts hm)
      simp only [check_values_go, if_pos hts, List.foldl_cons]
      rw [hmax] at *
      exact ih hb er m hm
    · have hmax : (if ts > m then ts else m) = max m ts := by
        rcases le_or_lt ts m with hc | hc
        · rw [if_neg (not_lt.mpr hc), max_eq_left hc]
        · rw [if_pos hc, max_eq_right (le_of_lt hc)]
      simp only [check_values_go, if_neg hts, List.foldl_cons]
      rw [hmax]
      exact ih _ _ _ (le_trans hm (le_max_left m ts))

lemma foldl_max_le_init : ∀ (l : List (ℤ × GRec)) (m : ℤ),
    m ≤ l.foldl (fun acc p => max acc p.1) m := by
  intro l
  induction l with
  | nil => intro m; exact le_refl m
  | cons p rest ih =>
    intro m
    simp only [List.foldl_cons]
    exact le_trans (le_max_left m p.1) (ih (max m p.1))

/-- C7.  The general-log cursor is monotone: `check_values` returns the
running maximum of the cursor and all record timestamps (hence never less
than the cursor, even on an empty scan), one `check_general_logs` run never
decreases the stored cursor, and over any sequence of scans the cursor never
falls below its starting value. -/
theorem general_log_cursor_monotone :
    (∀ (data : List (ℤ × GRec)) (last : ℤ) (w : List String),
      last ≤ (check_values data last w).2.2
      ∧ (check_values data last w).2.2 = data.foldl (fun acc p => max acc p.1) last)
    ∧ (∀ (files : List GFile) (w : List String) (c : ℤ),
        c ≤ check_general_logs_cursor files w c)
    ∧ (∀ (scans : List (List GFile)) (w : List String) (c0 : ℤ),
        c0 ≤ scans.foldl (fun c fsc => check_general_logs_cursor fsc w c) c0) := by
  have hstep : ∀ (files : List GFile) (w : List String) (c : ℤ),
      c ≤ check_general_logs_cursor files w c := by
    intro files w c
    unfold check_general_logs_cursor
    by_cases hf : files.isEmpty
    · rw [if_pos hf]
    · rw [if_neg hf]
      cases process_general_log_files files c w with
      | error e => exact le_refl c
      | ok st =>
        obtain ⟨a1, a2, a3, m⟩ := st
        show c ≤ if m > c then m else c
        by_cases hm : m > c
        · rw [if_pos hm]
          exact le_of_lt hm
        · rw [if_neg hm]
  refine ⟨?_, hstep, ?_⟩
  · intro data last w
    have heq : (check_values data last w).2.2
        = data.foldl (fun acc p => max acc p.1) last :=
      check_values_go_third last w data "" "" last (le_refl last)
    exact ⟨heq ▸ foldl_max_le_init data last, heq⟩
  · intro scans
    induction scans with
    | nil => intro w c0; exact le_refl c0
    | cons s rest ih =>
      intro w c0
      simp only [List.foldl_cons]
      exact le_trans (hstep s w c0) (ih w (check_general_logs_cursor s w c0))

/-! ### C4: threshold-mode selection and evaluation -/

/-- Statement of the amended claim C4, following its words: the threshold
scan skips records whose timestamp is below the cursor and evaluates every
remaining record; a present monitored field exceeding its ceiling (re)records
the entry for the file, and an absent monitored field overwrites the alert
string with the `not found` message. -/
def threshold_scan_spec_step (file_name : String) (st : MyRecords × String)
    (p : ℤ × HRec) : MyRecords × String :=
  match p.2.lookup "disk_usage" with
  | some v =>
    if v > 95 then
      (setA st.1 file_name (setA ((st.1.lookup file_name).getD []) "disk_usage" (p.1, v)),
        st.2)
    else st
  | none => (st.1, file_name ++ ": " ++ "disk_usage" ++ " not found.\n")

/-- Statement of the amended claim C4 over a whole store: fold the per-record
evaluation over exactly the records at or past the cursor. -/
def threshold_scan_spec (file_name : String) (lct : ℤ) (data : List (ℤ × HRec))
    (st : MyRecords × String) : MyRecords × String :=
  (data.filter (fun p => decide (lct ≤ p.1))).foldl (threshold_scan_spec_step file_name) st

lemma scan_record_eval (fname : String) (lct : ℤ) (st : MyRecords × String) (p : ℤ × HRec)
    (hds : st.1.lookup "disk_usage" = none) (hle : ¬ p.1 < lct) :
    scan_record fname lct st p = .ok (threshold_scan_spec_step fname st p) := by
  unfold scan_record
  rw [if_neg hle]
  unfold threshold_scan_spec_step
  cases hv : p.2.lookup "disk_usage" with
  | none =>
    simp only [value_threshold_dict, List.foldlM, scan_threshold_item, hv]
    rfl
  | some v =>
    by_cases hgt : v > 95
    · simp only [value_threshold_dict, List.foldlM, scan_threshold_item, hv, if_pos hgt, hds]
      rfl
    · simp only [value_threshold_dict, List.foldlM, scan_threshold_item, hv, if_neg hgt]
      rfl

lemma threshold_step_preserves (fname : String) (st : MyRecords × String) (p : ℤ × HRec)
    (hfn : fname ≠ "disk_usage") (hds : st.1.lookup "disk_usage" = none) :
    (threshold_scan_spec_step fname st p).1.lookup "disk_usage" = none := by
  unfold threshold_scan_spec_step
  cases p.2.lookup "disk_usage" with
  | none => exact hds
  | some v =>
    by_cases hgt : v > 95
    · simp only [if_pos hgt]
      rw [lookup_setA_ne st.1 fname "disk_usage" _ (Ne.symm hfn)]
      exact hds
    · simp only [if_neg hgt]
      exact hds

lemma scan_records_eq_spec (fname : String) (lct : ℤ) (hfn : fname ≠ "disk_usage") :
    ∀ (data : List (ℤ × HRec)) (st : MyRecords × String),
      st.1.lookup "disk_usage" = none →
      scan_records fname lct data st = .ok (threshold_scan_spec fname lct data st) := by
  intro data
  induction data with
  | nil => intro st _; rfl
  | cons p rest ih =>
    intro st hds
    by_cases hp : p.1 < lct
    · have h1 : scan_record fname lct st p = .ok st := by
        unfold scan_record
        rw [if_pos hp]
      have h2 : threshold_scan_spec fname lct (p :: rest) st
          = threshold_scan_spec fname lct rest st := by
        unfold threshold_scan_spec
        rw [List.filter_cons_of_neg (by simp [not_le.mpr hp])]
      simp only [scan_records, h1]
      rw [ih st hds, h2]
    · have h1 : scan_record fname lct st p
          = .ok (threshold_scan_spec_step fname st p) := scan_record_eval fname lct st p hds hp
      have h2 : threshold_scan_spec fname lct (p :: rest) st
          = threshold_scan_spec fname lct rest (threshold_scan_spec_step fname st p) := by
        unfold threshold_scan_spec
        rw [List.filter_cons_of_pos (by simp [not_lt.mp hp]), List.foldl_cons]
      simp only [scan_records, h1]
      rw [ih _ (threshold_step_preserves fname st p hfn hds), h2]

/-- C4 (amended).  In threshold mode the cursor is used, not ignored: the
scan of a health store is unchanged by discarding the records below the
cursor (they are skipped), and it equals the amended-claim evaluation
`threshold_scan_spec`, which checks every record at or past the cursor —
recording an alarm entry for a present field exceeding its ceiling and
overwriting the alert string with `field not found` for an absent field;
every recorded entry is rendered into an `exceeds threshold` alarm line. -/
theorem threshold_scan_uses_cursor (fname : String) (lct : ℤ) (data : List (ℤ × HRec))
    (st : MyRecords × String) (ts : ℤ) (v : ℚ)
    (hfn : fname ≠ "disk_usage") (hds : st.1.lookup "disk_usage" = none) :
    scan_records fname lct data st
      = scan_records fname lct (data.filter (fun p => decide (lct ≤ p.1))) st
    ∧ scan_records fname lct data st = .ok (threshold_scan_spec fname lct data st)
    ∧ exceeds_lines [(fname, [("disk_usage", (ts, v))])]
        = .ok ("" ++ server_name fname ++ " ==>  " ++ "disk_usage" ++ " (" ++ toString v
            ++ ") exceeds threshold (" ++ toString (95 : ℚ) ++ ")\n") := by
  have hspec := scan_records_eq_spec fname lct hfn data st hds
  have hspec2 := scan_records_eq_spec fname lct hfn
    (data.filter (fun p => decide (lct ≤ p.1))) st hds
  have hfix : threshold_scan_spec fname lct (data.filter (fun p => decide (lct ≤ p.1))) st
      = threshold_scan_spec fname lct data st := by
    unfold threshold_scan_spec
    rw [List.filter_filter]
    simp
  refine ⟨?_, hspec, rfl⟩
  rw [hspec, hspec2, hfix]

/-- Witness for C4 on a concrete store: the record below the cursor is
skipped, the one past it is evaluated. -/
theorem threshold_scan_uses_cursor_witness :
    scan_records "srv.health_logs.json" 50
        [(10, [("disk_usage", (97 : ℚ))]), (60, [("disk_usage", 97)])] ([], "")
      = scan_records "srv.health_logs.json" 50
          ([(10, [("disk_usage", (97 : ℚ))]), (60, [("disk_usage", 97)])].filter
            (fun p => decide ((50 : ℤ) ≤ p.1))) ([], "")
    ∧ scan_records "srv.health_logs.json" 50
        [(10, [("disk_usage", (97 : ℚ))]), (60, [("disk_usage", 97)])] ([], "")
      = .ok (threshold_scan_spec "srv.health_logs.json" 50
          [(10, [("disk_usage", (97 : ℚ))]), (60, [("disk_usage", 97)])] ([], ""))
    ∧ exceeds_lines [("srv.health_logs.json", [("disk_usage", ((0 : ℤ), (97 : ℚ)))])]
        = .ok ("" ++ server_name "srv.health_logs.json" ++ " ==>  " ++ "disk_usage" ++ " ("
            ++ toString (97 : ℚ) ++ ") exceeds threshold (" ++ toString (95 : ℚ) ++ ")\n") :=
  threshold_scan_uses_cursor "srv.health_logs.json" 50
    [(10, [("disk_usage", (97 : ℚ))]), (60, [("disk_usage", 97)])] ([], "") 0 97
    (by decide) rfl

/-- C4 (counterexample).  A health store whose most recent record is below
every ceiling (disk_usage 80) still produces `exceeds threshold` alarm text,
because the older record (disk_usage 97 at timestamp 100) is also evaluated;
and the very same store with a different cursor produces a different result,
so selection does not ignore the cursor. -/
theorem check_system_health_not_most_recent_only :
    check_system_health
        [⟨"srv.health_logs.json", 0,
          .ok [(100, [("disk_usage", (97 : ℚ))]), (200, [("disk_usage", 80)])]⟩] 0 0
      = .ok ("health_logs ==>\n    disk_usage: 80\n",
          "health_logs ==>  disk_usage (97) exceeds threshold (95)\n",
          [("srv.health_logs.json", [("disk_usage", (100, 97))])])
    ∧ check_system_health
        [⟨"srv.health_logs.json", 0,
          .ok [(100, [("disk_usage", (97 : ℚ))]), (200, [("disk_usage", 80)])]⟩] 0 0
      ≠ check_system_health
          [⟨"srv.health_logs.json", 0,
            .ok [(100, [("disk_usage", (97 : ℚ))]), (200, [("disk_usage", 80)])]⟩] 0 150 := by
  exact ⟨by decide, by decide⟩

/-! ### C5: error accumulation during a scan -/

/-- C5 (failing runs).  First conjunct: a health file that is 2 hours stale
and whose older record lacks the monitored field ends the scan with the alarm
text equal to just the `not found` line — the staleness alarm accumulated
earlier in the same scan is discarded by the assignment (not `+=`) at the
`not found` site.  Second conjunct: the same file without the faulty record
keeps the staleness line, showing it had been produced and was then lost.
Third conjunct: in the general-log scan, a malformed store raises instead of
being accumulated, discarding the heartbeat/alarm text of the preceding good
source and aborting the scan. -/
theorem health_alert_overwritten_and_general_scan_aborts :
    check_system_health
        [⟨"a.health_logs.json", 0,
          .ok [(9000, [("other", (1 : ℚ))]), (9500, [("disk_usage", 50)])]⟩] 10000 0
      = .ok ("health_logs ==>\n    disk_usage: 50\n",
          "a.health_logs.json: disk_usage not found.\n", [("a.health_logs.json", [])])
    ∧ check_system_health
        [⟨"a.health_logs.json", 0, .ok [(9500, [("disk_usage", (50 : ℚ))])]⟩] 10000 0
      = .ok ("health_logs ==>\n    disk_usage: 50\n",
          "a.health_logs.json has not been updated in 2 hours.\n",
          [("a.health_logs.json", [])])
    ∧ process_general_log_files
        [⟨"x.general_logs.json", .ok [(10, [("error", "boom")])]⟩,
         ⟨"y.general_logs.json", .error "Expecting value"⟩] 0 alarm_words_for_general_logs
      = .error (.exception "Expecting value") := by
  exact ⟨by decide, by decide, by decide⟩

/-! ### C8: most-recent selection -/

lemma sortDesc_head_spec : ∀ (l : List (ℤ × HRec)), l ≠ [] →
    ∃ p, (sortDesc l).head? = some p ∧ p ∈ l ∧ ∀ q ∈ l, q.1 ≤ p.1 := by
  intro l
  induction l with
  | nil => intro h; exact absurd rfl h
  | cons x xs ih =>
    intro _
    by_cases hxs : xs = []
    · subst hxs
      refine ⟨x, rfl, List.mem_singleton_self x, ?_⟩
      intro q hq
      rw [List.mem_singleton] at hq
      subst hq
      exact le_refl _
    · obtain ⟨p', hh, hm, hb⟩ := ih hxs
      have hsort : sortDesc (x :: xs) = insertDesc x (sortDesc xs) := rfl
      cases hs : sortDesc xs with
      | nil =>
        rw [hs] at hh
        cases hh
      | cons y t =>
        rw [hs] at hh
        have hy : y = p' := by simpa using hh
        subst hy
        by_cases hgt : x.1 > y.1
        · refine ⟨x, ?_, List.mem_cons_self x xs, ?_⟩
          · rw [hsort, hs]
            unfold insertDesc
            rw [if_pos hgt]
            rfl
          · intro q hq
            rcases List.mem_cons.mp hq with h1 | h1
            · subst h1
              exact le_refl _
            · exact le_trans (hb q h1) (le_of_lt hgt)
        · refine ⟨y, ?_, List.mem_cons_of_mem x hm, ?_⟩
          · rw [hsort, hs]
            unfold insertDesc
            rw [if_neg hgt]
            rfl
          · intro q hq
            rcases List.mem_cons.mp hq with h1 | h1
            · subst h1
              exact not_lt.mp hgt
            · exact hb q h1

/-- C8 (amended).  The latest-values selection picks the head of the stable
descending sort: for a non-empty store that is a record of the store with a
maximal timestamp; for an empty store `[0]` raises `IndexError` (not an empty
mapping), aborting `check_system_health` for that file; rendering the
monitored fields from the selected record succeeds when the field is present
and raises `KeyError` when it is absent. -/
theorem most_recent_selection (l : List (ℤ × HRec)) (st : String × MyRecords × String)
    (lct now mt : ℤ) (nm : String) (rec rec2 : HRec) (v : ℚ)
    (h : l ≠ []) (h1 : rec.lookup "disk_usage" = some v)
    (h2 : rec2.lookup "disk_usage" = none) :
    (∃ p, (sortDesc l).head? = some p ∧ p ∈ l ∧ ∀ q ∈ l, q.1 ≤ p.1)
    ∧ process_health_file lct now st ⟨nm, mt, .ok []⟩ = .error .indexError
    ∧ latest_values_of rec
        = .ok (String.intercalate "\n    " ["disk_usage" ++ ": " ++ toString v])
    ∧ latest_values_of rec2 = .error .keyError := by
  refine ⟨sortDesc_head_spec l h, rfl, ?_, ?_⟩
  · simp only [latest_values_of, value_threshold_dict, List.mapM, List.mapM.loop, h1]
    rfl
  · simp only [latest_values_of, value_threshold_dict, List.mapM, List.mapM.loop, h2]
    rfl

/-- Witness for C8 at a concrete store and records. -/
theorem most_recent_selection_witness :
    (∃ p, (sortDesc [(5, [("disk_usage", (97 : ℚ))]), (9, [])]).head? = some p
      ∧ p ∈ [(5, [("disk_usage", (97 : ℚ))]), (9, [])]
      ∧ ∀ q ∈ [(5, [("disk_usage", (97 : ℚ))]), (9, [])], q.1 ≤ p.1)
    ∧ process_health_file 0 0 ("", [], "") ⟨"n.health_logs.json", 0, .ok []⟩
        = .error .indexError
    ∧ latest_values_of [("disk_usage", (42 : ℚ))]
        = .ok (String.intercalate "\n    " ["disk_usage" ++ ": " ++ toString (42 : ℚ)])
    ∧ latest_values_of [("x", (1 : ℚ))] = .error .keyError :=
  most_recent_selection [(5, [("disk_usage", (97 : ℚ))]), (9, [])] ("", [], "") 0 0 0
    "n.health_logs.json" [("disk_usage", (42 : ℚ))] [("x", (1 : ℚ))] 42
    (by decide) rfl rfl

/-- C8 (counterexample).  For a store with no records, the latest-values
selection does not return an empty mapping: `check_system_health` fails with
`IndexError`. -/
theorem check_system_health_empty_store_index_error :
    check_system_health [⟨"b.health_logs.json", 0, .ok []⟩] 0 0 = .error .indexError := by
  decide

end TelegramBot
